import Mathlib

/-!
Verification of the node-mc server supervisor (src/unnamed/part_000, v1.2.0).

The development shallowly embeds the three core subsystems:
* the mod-diff engine (`scanForNewMods` and its helpers),
* the console parser and process supervisor (`startServer`'s data handler,
  `writeToPty` / `sendCommand`, the lifecycle state machine),
* the world-removal command (`removeWorld`).

Filesystem effects are modelled as explicit `FsOp` values; JavaScript strings
are Lean `String`s (the source decodes subprocess output as single-byte text);
the stateful `lastIndex` of the module-level global regexes is threaded
explicitly where the source relies on it (`regex.cdone` used via `exec`).
-/

/-- One record of the mod manifest (`mods.json`): the source only ever builds
objects with exactly the fields `filename` and `hash`. -/
structure ModRecord where
  filename : String
  hash : String
deriving DecidableEq, Repr

/-- JS member access `mod_installed.index`: a `ModRecord` has fields
`filename` and `hash` only, so reading `.index` yields `undefined`.
Modelled as `none`. -/
def ModRecord.indexField (_ : ModRecord) : Option Nat := none

/-- The three mod-change event kinds emitted by `scanForNewMods`. -/
inductive ModEventKind where
  | modAddition
  | modDeletion
  | modUpdated
deriving DecidableEq, Repr

/-- An entry of `modEventQ`: `{data: mod, event: '...'}`. The `data` field is
always a `ModRecord` object, never `null` or `undefined`. -/
structure QueueEntry where
  data : ModRecord
  event : ModEventKind
deriving DecidableEq, Repr

/-- A directory entry of the `mods` directory as seen by `fs.readdir`,
together with the sha512 content hash its bytes would produce (the source
computes it by piping the file through a hash stream). Subdirectories carry
no hash; the scan skips them via `lstatSync(..).isDirectory()`. -/
inductive DirEntry where
  | file (name : String) (hash : String)
  | dir (name : String)
deriving DecidableEq, Repr

/-- Name of a directory entry. -/
def DirEntry.name : DirEntry → String
  | .file n _ => n
  | .dir n => n

/-- `fs.existsSync(path.join(mod_dir, filename))`: true iff some directory
entry (file or subdirectory) has that name. -/
def existsOnDisk (disk : List DirEntry) (n : String) : Bool :=
  disk.any (fun e => e.name == n)

/-- Filesystem operations issued by the program, as an explicit trace. -/
inductive FsOp where
  | writeFile (path : String) (contents : String)
  | rename (src : String) (dst : String)
  | unlink (path : String)
  | rmdir (path : String)
deriving DecidableEq, Repr

/-- Is this operation a rename?  The source never issues one, which is the
substance of the manifest-persistence claim. -/
def FsOp.isRename : FsOp → Bool
  | .rename _ _ => true
  | _ => false

/-- `path.join(a, b)` for the simple relative names this program joins. -/
def joinPath (a b : String) : String := a ++ "/" ++ b

/-- `JSON.stringify` of one manifest record. -/
def jsonOfRecord (m : ModRecord) : String :=
  "\x7b\"filename\":\"" ++ m.filename ++ "\",\"hash\":\"" ++ m.hash ++ "\"\x7d"

/-- `JSON.stringify(self.mods)`: a JSON array of records. -/
def jsonOfManifest (l : List ModRecord) : String :=
  "[" ++ String.intercalate "," (l.map jsonOfRecord) ++ "]"

/-!
## Deletion pass of `scanForNewMods`

The source iterates the live array while splicing out missing records:

    let i = 0;
    for(let mod of self.mods) {
      if(!fs.existsSync(mloc)) {
        modEventQ.push({data: mod, event: 'modDeletion'});
        self.mods.splice(i, 1);
      }
      i++;
    }

A JS `for...of` over an array reads the element at an internal cursor `k`
(bumped each step) from the *current* array, so a `splice` shifts the yet
unvisited elements one position left and the element right after a removed
one is never examined.  The manual counter `i` stays equal to `k` throughout
(both are incremented once per iteration), so the splice always removes the
element just examined.  `deletionPass` models the loop with the cursor
explicit; `List.eraseIdx` is `Array.prototype.splice(i, 1)`.
-/

/-- The deletion loop of `scanForNewMods`, cursor-explicit.  The cursor
`k` grows by one per iteration while the array never grows, so the loop
performs at most `mods.length - k` further iterations; the `fuel`
parameter is a structural bound on that count and is never exhausted when
called with `fuel = mods.length` and `k = 0` (the `fuel = 0` base case
returns the loop's exit value). -/
def deletionPassGo (onDisk : String → Bool) :
    Nat → Nat → List ModRecord → List QueueEntry →
    List ModRecord × List QueueEntry
  | 0, _, mods, q => (mods, q)
  | fuel + 1, k, mods, q =>
    if h : k < mods.length then
      let mod := mods.get ⟨k, h⟩
      if onDisk mod.filename then
        deletionPassGo onDisk fuel (k + 1) mods q
      else
        deletionPassGo onDisk fuel (k + 1) (mods.eraseIdx k)
          (q ++ [⟨mod, .modDeletion⟩])
    else
      (mods, q)

/-- The deletion pass: run the loop from cursor 0 with an empty event
queue. -/
def deletionPass (onDisk : String → Bool) (mods : List ModRecord) :
    List ModRecord × List QueueEntry :=
  deletionPassGo onDisk mods.length 0 mods []

/-!
## Addition/update pass

Per directory entry (the body of the `async.each` over `fs.readdir`'s
result; Node runs each completion callback atomically, so the shared-array
mutations are serialized and a sequential fold in arrival order is faithful):

    let mod_installed = self.mods.filter(obj => obj.filename === mod)[0];
    if(!mod_installed) { ...push {filename, hash}, queue modAddition... }
    else {
      const modHash = hash.read();
      if(modHash !== mod_installed.hash) {
        self.mods[mod_installed.index].hash = modHash;   // .index is undefined
        modEventQ.push({data: self.mods[mod_installed.index], event: 'modUpdated'});
      }
    }

`mod_installed.index` is `undefined` (records have only `filename` and
`hash`), `self.mods[undefined]` is `undefined`, and assigning `.hash` to
`undefined` throws a `TypeError` that no handler catches, so the process
dies.  Modelled with `Except`: the error value is the thrown exception.
-/

/-- One step of the addition/update pass. -/
def processEntry (mods : List ModRecord) (q : List QueueEntry) :
    DirEntry → Except String (List ModRecord × List QueueEntry)
  | .dir _ => .ok (mods, q)
  | .file name hsh =>
    match (mods.filter (fun obj => obj.filename == name)).head? with
    | none =>
        -- new mod: push {filename: mod, hash: hash.read()} and queue modAddition
        .ok (mods ++ [⟨name, hsh⟩], q ++ [⟨⟨name, hsh⟩, .modAddition⟩])
    | some inst =>
        if hsh == inst.hash then
          .ok (mods, q)
        else
          match inst.indexField with
          | none =>
              -- self.mods[undefined] is undefined; setting `.hash` on it throws
              .error "TypeError: Cannot set property hash of undefined"
          | some idx =>
              -- dead branch: `.index` never exists on a record; kept for shape
              match mods.get? idx with
              | none => .error "TypeError: Cannot set property hash of undefined"
              | some m =>
                  .ok (mods.set idx { m with hash := hsh },
                       q ++ [⟨{ m with hash := hsh }, .modUpdated⟩])

/-- The whole addition/update pass; the uncaught `TypeError` terminates the
process, so processing short-circuits. -/
def processEntries (mods : List ModRecord) (q : List QueueEntry) :
    List DirEntry → Except String (List ModRecord × List QueueEntry)
  | [] => .ok (mods, q)
  | e :: rest =>
    match processEntry mods q e with
    | .error s => .error s
    | .ok mq => processEntries mq.1 mq.2 rest

/-!
## Event coalescing (`sendEvents`)
-/

/-- The accumulation loop of `sendEvents`:
`for(let mod of a) if(mod.event === event) data.push(mod.data)`. -/
def collectKind : List QueueEntry → ModEventKind → List ModRecord
  | [], _ => []
  | e :: rest, k =>
      if e.event == k then e.data :: collectKind rest k
      else collectKind rest k

/-- `sendEvents(a, event)`: collect matching queue entries; if
`data[0] === undefined || data[0] === null` (true exactly when `data` is
empty, since queued `data` fields are always `ModRecord` objects) emit
nothing, else emit one event carrying the whole list. -/
def sendEvents (a : List QueueEntry) (k : ModEventKind) :
    Option (List ModRecord) :=
  match collectKind a k with
  | [] => none
  | d => some d

/-- The three `sendEvents` calls at the end of a scan, in source order
(`modAddition`, then `modDeletion`, then `modUpdated`); each call publishes
at most one batch. -/
def emittedEvents (q : List QueueEntry) :
    List (ModEventKind × List ModRecord) :=
  [ModEventKind.modAddition, ModEventKind.modDeletion,
   ModEventKind.modUpdated].filterMap
    (fun k => (sendEvents q k).map (fun l => (k, l)))

/-!
## The scan
-/

/-- Result of a scan that ran to completion: final manifest, the batches
published on the event bus in order, and the filesystem writes issued by the
completion callback. -/
structure ScanResult where
  mods : List ModRecord
  emitted : List (ModEventKind × List ModRecord)
  fsOps : List FsOp
deriving DecidableEq, Repr

/-- `scanForNewMods`, for a configured directory `dir`, a loaded manifest
`mods` and the `mods` directory contents `disk`.  Notes kept from the
source: `fs.existsSync(clientMods)` tests the *array* `[]` rather than the
path `clientModsP`, so it is always false and `clientMods` stays `[]`; the
final callback unconditionally rewrites `mods.json` (a plain `fs.writeFile`,
no temporary file, no rename) and then writes `clientmods.json`. -/
def scanForNewMods (dir : String) (mods : List ModRecord)
    (disk : List DirEntry) : Except String ScanResult :=
  let p1 := deletionPass (existsOnDisk disk) mods
  match processEntries p1.1 p1.2 disk with
  | .error e => .error e
  | .ok mq =>
      .ok { mods := mq.1
            emitted := emittedEvents mq.2
            fsOps := [FsOp.writeFile (joinPath dir "mods.json")
                        (jsonOfManifest mq.1),
                      FsOp.writeFile (joinPath dir "clientmods.json") "[]"] }

/-!
## Console parser

The regex table of the source:

    ctags: /\[([\w\d\s\\/.:]+)\]/gi
    cinfo: /(\[[0-9:]+\]) (\[[\[A-Z\s\\/.\]]+: )/gi
    cdone: /Done \(([0-9\.]+)s\)\!/gi

All three are module-level globals.  `ctags` is only used through
`getRegexMatches`, whose `exec` loop always runs to exhaustion and so leaves
`lastIndex` back at 0 — stateless across calls.  `cinfo` is only used with
`String.prototype.replace`, which with a global regex starts from 0 and
resets `lastIndex` — also stateless.  `cdone` is used with a bare `exec`,
so its `lastIndex` persists across chunks (and even across restarts); it is
threaded through the supervisor state below.

None of the character classes contains its follow-up literal (`]` after
`[0-9:]`/`[\w\d\s\\/.:]`, `:` after `[\[A-Z\s\\/.\]]`, `s` after `[0-9.]`),
so greedy matching with backtracking coincides with maximal-run matching and
the matchers below are deterministic scans.
-/

/-- JS `\s` restricted to the single-byte text this program feeds its
regexes (the data handler decodes chunks with `toString('ascii')`). -/
def jsWhitespace (c : Char) : Bool :=
  c == ' ' || c == '\t' || c == '\n' || c == '\r' || c == '\x0b' || c == '\x0c'

/-- Maximal run of characters satisfying `f`: the taken run and the rest. -/
def takeRun (f : Char → Bool) : List Char → List Char × List Char
  | [] => ([], [])
  | c :: cs =>
      if f c then
        let r := takeRun f cs
        (c :: r.1, r.2)
      else ([], c :: cs)

/-- Case-insensitive literal match (the `i` flag): consume `pat` from the
front of the input, returning the rest on success. -/
def ciConsume : List Char → List Char → Option (List Char)
  | [], rest => some rest
  | _, [] => none
  | p :: ps, c :: cs =>
      if p.toLower == c.toLower then ciConsume ps cs else none

/-- Character class `[\w\d\s\\/.:]` of `regex.ctags` (`\w` is
`[A-Za-z0-9_]`; `\d ⊆ \w`). -/
def classTag (c : Char) : Bool :=
  c.isAlphanum || c == '_' || jsWhitespace c || c == '\\' || c == '/' ||
    c == '.' || c == ':'

/-- Try `regex.ctags` at the head of the input: `\[([\w\d\s\\/.:]+)\]`.
Returns the captured group and the total match length. -/
def matchTag (cs : List Char) : Option (List Char × Nat) :=
  match cs with
  | '[' :: r =>
      let a := takeRun classTag r
      if a.1.isEmpty then none
      else
        match a.2 with
        | ']' :: _ => some (a.1, 1 + a.1.length + 1)
        | _ => none
  | _ => none

/-- The `exec` loop of `getRegexMatches` over `regex.ctags`: successive
non-overlapping matches, scanning left to right; each match has one capture
group (`match.length` is 2), so `match[1]` — the captured string — is
pushed.  Every step consumes at least one character (a match has length at
least 3; a non-match advances by one), so the input's length bounds the
number of steps and the `fuel` parameter is never exhausted when primed
with it. -/
def ctagsScanGo : Nat → List Char → List String
  | 0, _ => []
  | _, [] => []
  | fuel + 1, c :: cs =>
      match matchTag (c :: cs) with
      | some g => String.mk g.1 :: ctagsScanGo fuel (cs.drop (g.2 - 1))
      | none => ctagsScanGo fuel cs

/-- `getRegexMatches(regex.ctags, s)`. -/
def ctagsMatches (s : String) : List String :=
  ctagsScanGo s.data.length s.data

/-- First character class of `regex.cinfo`: `[0-9:]`. -/
def classInfo1 (c : Char) : Bool := c.isDigit || c == ':'

/-- Second character class of `regex.cinfo`: `[\[A-Z\s\\/.\]]` with the `i`
flag, i.e. `[`, ASCII letters, whitespace, `\`, `/`, `.`, `]`. -/
def classInfo2 (c : Char) : Bool :=
  c == '[' || c.isAlpha || jsWhitespace c || c == '\\' || c == '/' ||
    c == '.' || c == ']'

/-- Try `regex.cinfo` at the head of the input:
`(\[[0-9:]+\]) (\[[\[A-Z\s\\/.\]]+: )`.  Returns the match length. -/
def matchInfo (cs : List Char) : Option Nat :=
  match cs with
  | '[' :: r1 =>
      let a := takeRun classInfo1 r1
      if a.1.isEmpty then none
      else
        match a.2 with
        | ']' :: ' ' :: '[' :: r2 =>
            let b := takeRun classInfo2 r2
            if b.1.isEmpty then none
            else
              match b.2 with
              | ':' :: ' ' :: _ => some (1 + a.1.length + 3 + b.1.length + 2)
              | _ => none
        | _ => none
  | _ => none

/-- `data.replace(regex.cinfo, '')`: global replace deletes every
non-overlapping match, scanning left to right and resuming after each
match.  Every match has length at least 7, so when a match of length `len`
is found at `c :: cs`, `(c :: cs).drop len = cs.drop (len - 1)`; each step
consumes at least one character, so the input's length bounds the number
of steps and the `fuel` parameter is never exhausted when primed with
it. -/
def replaceInfoGo : Nat → List Char → List Char
  | 0, cs => cs
  | _, [] => []
  | fuel + 1, c :: cs =>
      match matchInfo (c :: cs) with
      | some len => replaceInfoGo fuel (cs.drop (len - 1))
      | none => c :: replaceInfoGo fuel cs

/-- `data.replace(regex.cinfo, '')`. -/
def replaceInfoAll (cs : List Char) : List Char :=
  replaceInfoGo cs.length cs

/-- `.replace(/\r/g, '')` and `.replace(/\n/g, '')`: delete every
occurrence of one character. -/
def removeAllChar (ch : Char) (cs : List Char) : List Char :=
  cs.filter (fun c => c != ch)

/-- Consume an exact literal from the front of the input. -/
def exactConsume : List Char → List Char → Option (List Char)
  | [], rest => some rest
  | _, [] => none
  | p :: ps, c :: cs =>
      if p == c then exactConsume ps cs else none

/-- `.replace('\u001b[m>', '')`: a *string* pattern, so only the first
occurrence is removed. -/
def replaceFirstStr (pat : List Char) : List Char → List Char
  | [] => []
  | c :: cs =>
      match exactConsume pat (c :: cs) with
      | some rest => rest
      | none => c :: replaceFirstStr pat cs

/-- The `cinfo` value of the data handler:
`data.replace(regex.cinfo, '').replace(/\r/g, '').replace(/\n/g, '')
.replace('\u001b[m>', '')`. -/
def computeCinfo (data : String) : String :=
  String.mk (replaceFirstStr "\x1b[m>".data
    (removeAllChar '\n' (removeAllChar '\r' (replaceInfoAll data.data))))

/-- Try `regex.cdone` at the head of the input:
`Done \(([0-9\.]+)s\)\!` with the `i` flag.  Returns the match length. -/
def matchDone (cs : List Char) : Option Nat :=
  match ciConsume "Done (".data cs with
  | none => none
  | some rest =>
      let a := takeRun (fun c => c.isDigit || c == '.') rest
      if a.1.isEmpty then none
      else
        match ciConsume "s)!".data a.2 with
        | none => none
        | some _ => some (6 + a.1.length + 3)

/-- Find the first `cdone` match whose start is at or after the current
position, returning the index just past the match. -/
def findDoneFrom : List Char → Nat → Option Nat
  | cs, pos =>
      match matchDone cs with
      | some len => some (pos + len)
      | none =>
          match cs with
          | [] => none
          | _ :: rest => findDoneFrom rest (pos + 1)

/-- `regex.cdone.exec(s)` for a global regex: search from `lastIndex`; on a
match return true and set `lastIndex` past the match, on failure return
false and reset `lastIndex` to 0. -/
def cdoneExec (s : String) (lastIndex : Nat) : Bool × Nat :=
  match findDoneFrom (s.data.drop lastIndex) lastIndex with
  | some e => (true, e)
  | none => (false, 0)

/-!
## `getRegexMatches`
-/

/-- The regex objects of the module's regex table that the source ever
passes to `getRegexMatches` (only `regex.ctags`, at the top of the data
handler). -/
inductive RegexObj where
  | ctags
deriving DecidableEq, Repr

/-- A JS value in first-argument position of `getRegexMatches`: either a
`RegExp` instance or anything else (string, number, array, `undefined`,
...), summarised by a description. -/
inductive JsArg where
  | regexp (r : RegexObj)
  | other (desc : String)
deriving DecidableEq, Repr

/-- Result of `getRegexMatches`: the early-returned string `'ERROR'`, or
the array of matches (for `regex.ctags`, whose matches have exactly one
capture group, each element is the captured string `match[1]`). -/
inductive GetMatchesResult where
  | errorString (s : String)
  | matchArray (l : List String)
deriving DecidableEq, Repr

/-- `getRegexMatches(regex, string)`: `if(!(regex instanceof RegExp))
return 'ERROR';` else run the exec loop. -/
def getRegexMatches (a : JsArg) (s : String) : GetMatchesResult :=
  match a with
  | .other _ => .errorString "ERROR"
  | .regexp .ctags => .matchArray (ctagsMatches s)

/-!
## The data handler and the supervisor state machine
-/

/-- Observable output of one run of the `term.on('data')` handler. -/
structure ChunkOutput where
  consoleEvent : Option (List String)
  statusUpEmitted : Bool
  logWrite : String
deriving DecidableEq, Repr

/-- The body of `term.on('data', ...)` for one chunk, parameterized by the
persistent `lastIndex` of `regex.cdone`; returns the handler's output and
the new `lastIndex`.  `res` is `getRegexMatches(regex.ctags, data)` with
`cinfo` pushed on the end; a console event is emitted unless
`res[0]` fails the `!== null / !== ' ' / !== ''` test (it is never `null`:
every element is a string; the `none` branch below is unreachable since
`res` is never empty, and mirrors JS strict inequality on `undefined`). -/
def handleChunk (data : String) (cdoneLast : Nat) : ChunkOutput × Nat :=
  let res :=
    (match getRegexMatches (.regexp .ctags) data with
     | .matchArray l => l
     | .errorString _ => []) ++ [computeCinfo data]
  let consoleEvt :=
    match res.head? with
    | some h => if h == " " || h == "" then none else some res
    | none => some res
  let ex := cdoneExec (computeCinfo data) cdoneLast
  ({ consoleEvent := consoleEvt
     statusUpEmitted := ex.1
     logWrite := data ++ "\n" }, ex.2)

/-- Supervisor state: the `pty.running` flag, the persistent `lastIndex` of
the module-level `regex.cdone`, and the observable histories — `status`
events published on the bus, data written to the pty, log-sink writes, and
console events. -/
structure SupState where
  ptyRunning : Bool
  cdoneLast : Nat
  statusEvents : List String
  ptyWrites : List String
  logWrites : List String
  consoleEvents : List (List String)
deriving DecidableEq, Repr

/-- State before `startServer` is first called: `this.pty = {}`, so
`pty.running` is undefined (falsy). -/
def initState : SupState :=
  { ptyRunning := false, cdoneLast := 0, statusEvents := [],
    ptyWrites := [], logWrites := [], consoleEvents := [] }

/-- External stimuli the supervisor reacts to: the spawn performed by
`startServer`, a data chunk from the pty, and the pty's exit event.  Data
and exit events can only come from a live pty, so they are no-ops when no
process is running. -/
inductive SupInput where
  | spawn
  | chunk (data : String)
  | exitEvt
deriving DecidableEq, Repr

/-- One supervisor step.  `spawn`: set `pty.running = true` and emit
`status: starting`.  `chunk`: run the data handler, appending its console
event, possible `status: up`, and log write.  `exit`: emit `status: down`
and clear `pty.running` (the source also deletes the log file and resets
the event-emitter's listener table; neither affects the claims below). -/
def stepSup (s : SupState) (e : SupInput) : SupState :=
  match e with
  | .spawn =>
      { s with ptyRunning := true
               statusEvents := s.statusEvents ++ ["starting"] }
  | .chunk d =>
      if s.ptyRunning then
        let out := handleChunk d s.cdoneLast
        { s with
          consoleEvents := s.consoleEvents ++
            (match out.1.consoleEvent with | some r => [r] | none => []),
          statusEvents := s.statusEvents ++
            (if out.1.statusUpEmitted then ["up"] else []),
          logWrites := s.logWrites ++ [out.1.logWrite],
          cdoneLast := out.2 }
      else s
  | .exitEvt =>
      if s.ptyRunning then
        { s with statusEvents := s.statusEvents ++ ["down"],
                 ptyRunning := false }
      else s

/-- Run the supervisor over a whole input trace. -/
def runTrace (tr : List SupInput) : SupState := tr.foldl stepSup initState

/-- `isPtyRunning()`. -/
def isPtyRunning (s : SupState) : Bool :=
  if s.ptyRunning then true else false

/-- `writeToPty(data)`: if the pty is running, `term.write(data + '\r')`
and return true; otherwise return false. -/
def writeToPty (s : SupState) (data : String) : SupState × Bool :=
  if isPtyRunning s then
    ({ s with ptyWrites := s.ptyWrites ++ [data ++ "\r"] }, true)
  else (s, false)

/-- `sendCommand(cmd)`: delegate to `writeToPty`, mapping its result to a
boolean. -/
def sendCommand (s : SupState) (cmd : String) : SupState × Bool :=
  let r := writeToPty s cmd
  if !r.2 then (r.1, false) else (r.1, true)

/-- The spec-level lifecycle state (`Stopped`/`Starting`/`Running`),
derived from the last `status` event the supervisor published: `starting`
at spawn, `up` at the ready signal, `down` at exit. -/
inductive Phase where
  | stopped
  | starting
  | running
deriving DecidableEq, Repr

/-- Observable lifecycle state of a supervisor state. -/
def lifecycleState (s : SupState) : Phase :=
  match s.statusEvents.getLast? with
  | some "up" => .running
  | some "starting" => .starting
  | _ => .stopped

/-!
## `removeWorld`
-/

/-- An entry of a world directory tree, as walked by the inner
`deleteFolderRecursive` (`readdirSync` plus
`lstatSync(curPath).isDirectory()`). -/
inductive WorldEntry where
  | file (name : String)
  | dir (name : String) (children : List WorldEntry)
deriving Repr

/-- The `forEach` body of `deleteFolderRecursive` over a directory's
children at path `p`: a file is unlinked (`curPath = path + '/' + file`); a
subdirectory is recursed into, removing its contents and then the
subdirectory itself. -/
def delChildren : String → List WorldEntry → List FsOp
  | _, [] => []
  | p, .file n :: rest =>
      FsOp.unlink (p ++ "/" ++ n) :: delChildren p rest
  | p, .dir n cs :: rest =>
      (delChildren (p ++ "/" ++ n) cs ++ [FsOp.rmdir (p ++ "/" ++ n)]) ++
        delChildren p rest

/-- `deleteFolderRecursive(path)` on an existing directory with the given
children: delete every child, then `rmdirSync(path)`. -/
def deleteFolderRecursive (p : String) (children : List WorldEntry) :
    List FsOp :=
  delChildren p children ++ [FsOp.rmdir p]

/-- The mc-api-like response object `{success, reason?}` returned by
`removeWorld` (a successful call carries no `reason` field). -/
structure ApiResult where
  success : Bool
  reason : Option String
deriving DecidableEq, Repr

/-- `removeWorld(name)`.  The world directories under the configured
minecraft dir are modelled as an association list from name to contents:
`fs.existsSync(worldDir)` is the lookup, and a successful call removes
that tree from the filesystem while issuing the `deleteFolderRecursive`
operations.  The source's check order is kept: `!name` (the empty string
is falsy), then `isPtyRunning()`, then existence. -/
def removeWorld (mcDir : String) (s : SupState)
    (worlds : List (String × List WorldEntry)) (name : String) :
    ApiResult × List (String × List WorldEntry) × List FsOp :=
  let worldDir := joinPath mcDir name
  if name == "" then
    ({ success := false, reason := some "INVOKE" }, worlds, [])
  else if isPtyRunning s then
    ({ success := false, reason := some "PTY" }, worlds, [])
  else
    match worlds.lookup name with
    | some children =>
        ({ success := true, reason := none },
         worlds.eraseP (fun p => p.1 == name),
         deleteFolderRecursive worldDir children)
    | none =>
        ({ success := false, reason := some "NOTEXIST" }, worlds, [])

/-!
## Specification-side descriptions and concrete scenario inputs

These definitions follow the specification's words; the theorems below
compare the source-derived functions against them.
-/

/-- The records of one change kind in a scan's event queue, in queue
order: the specification's "every affected ModRecord of that kind". -/
def kindData (q : List QueueEntry) (k : ModEventKind) : List ModRecord :=
  (q.filter (fun e => e.event == k)).map QueueEntry.data

/-- A chunk consisting of just a ready marker. -/
def doneChunk : String := "Done (3.21s)!"

/-- The console chunk of the specification's Scenario 4. -/
def scenario4Chunk : String :=
  "[12:00:00] [Server thread/INFO]: Done (3.21s)! For help, type..."

/-- The invariant tying the code-level `pty.running` flag to the
spec-level lifecycle state: the flag is set exactly in `Starting` and
`Running`. -/
def SupInv (s : SupState) : Prop :=
  s.ptyRunning = true ↔
    (lifecycleState s = Phase.starting ∨ lifecycleState s = Phase.running)

/-!
# Helper lemmas
-/

/-- The push loop of `sendEvents` collects exactly the queue entries of the
requested kind, in order. -/
theorem collectKind_eq (q : List QueueEntry) (k : ModEventKind) :
    collectKind q k = kindData q k := by
  induction q with
  | nil => rfl
  | cons e rest ih =>
      simp only [collectKind, kindData, List.filter_cons]
      split <;> simp_all [kindData]

/-- `sendEvents` publishes the kind's full record list exactly when it is
nonempty. -/
theorem sendEvents_eq (q : List QueueEntry) (k : ModEventKind) :
    sendEvents q k =
      if kindData q k = [] then none else some (kindData q k) := by
  unfold sendEvents
  rw [collectKind_eq]
  cases h : kindData q k <;> simp [h]

/-- The three `sendEvents` calls of a scan, written out per kind. -/
theorem emittedEvents_eq (q : List QueueEntry) :
    emittedEvents q =
      (if kindData q ModEventKind.modAddition = [] then []
       else [(ModEventKind.modAddition,
              kindData q ModEventKind.modAddition)]) ++
      (if kindData q ModEventKind.modDeletion = [] then []
       else [(ModEventKind.modDeletion,
              kindData q ModEventKind.modDeletion)]) ++
      (if kindData q ModEventKind.modUpdated = [] then []
       else [(ModEventKind.modUpdated,
              kindData q ModEventKind.modUpdated)]) := by
  simp only [emittedEvents, List.filterMap, sendEvents_eq]
  split_ifs <;> simp_all

/-- `sendCommand` in closed form: append `cmd + '\r'` to the pty writes
and succeed when the running flag is set; fail with no change otherwise. -/
theorem sendCommand_eq (s : SupState) (cmd : String) :
    sendCommand s cmd =
      if s.ptyRunning then
        ({ s with ptyWrites := s.ptyWrites ++ [cmd ++ "\r"] }, true)
      else (s, false) := by
  obtain ⟨pr, cl, se, pw, lw, ce⟩ := s
  cases pr <;> simp [sendCommand, writeToPty, isPtyRunning]

/-- Every supervisor step preserves the flag/phase invariant. -/
theorem supInv_step (s : SupState) (e : SupInput) (h : SupInv s) :
    SupInv (stepSup s e) := by
  cases e with
  | spawn =>
      simp [SupInv, stepSup, lifecycleState, List.getLast?_append_cons]
  | chunk d =>
      by_cases hr : s.ptyRunning = true
      · by_cases hup : ((handleChunk d s.cdoneLast).1).statusUpEmitted = true
        · simp [SupInv, stepSup, hr, hup, lifecycleState,
                List.getLast?_append_cons]
        · simp only [Bool.not_eq_true] at hup
          simpa [SupInv, stepSup, hr, hup, lifecycleState] using h
      · simp only [Bool.not_eq_true] at hr
        simpa [stepSup, hr] using h
  | exitEvt =>
      by_cases hr : s.ptyRunning = true
      · simp [SupInv, stepSup, hr, lifecycleState, List.getLast?_append_cons]
      · simp only [Bool.not_eq_true] at hr
        simpa [stepSup, hr] using h

/-- Every reachable supervisor state satisfies the flag/phase invariant:
`pty.running` is set exactly in the `Starting` and `Running` phases. -/
theorem supInv_runTrace (tr : List SupInput) : SupInv (runTrace tr) := by
  have hgen : ∀ (l : List SupInput) (s : SupState),
      SupInv s → SupInv (l.foldl stepSup s) := by
    intro l
    induction l with
    | nil => intro s hs; exact hs
    | cons e rest ih => intro s hs; exact ih _ (supInv_step s e hs)
  exact hgen tr initState (by simp [SupInv, initState, lifecycleState])

/-!
# Claim theorems
-/

/-- C1 (counterexample): in the `Starting` phase — immediately after spawn,
before any ready signal — `sendCommand("stop")` succeeds and writes
`stop\r` to the pty, contradicting the claim that every state other than
`Running` yields failure with no write. -/
theorem sendCommand_writes_while_starting :
    lifecycleState (runTrace [SupInput.spawn]) = Phase.starting ∧
    (sendCommand (runTrace [SupInput.spawn]) "stop").2 = true ∧
    ((sendCommand (runTrace [SupInput.spawn]) "stop").1).ptyWrites =
      ["stop\r"] :=
  ⟨rfl, rfl, rfl⟩

/-- C1 (amended): for every reachable supervisor state, `sendCommand(text)`
writes `text` plus a line terminator to the pty and returns success iff the
`pty.running` flag is set, which holds exactly when the lifecycle state is
`Starting` or `Running` (the flag is set at spawn, before the ready signal,
and cleared at process exit); otherwise it returns failure and performs no
write. -/
theorem sendCommand_gated_by_pty_flag (tr : List SupInput) (cmd : String) :
    ((sendCommand (runTrace tr) cmd).2 = true ↔
      (lifecycleState (runTrace tr) = Phase.starting ∨
       lifecycleState (runTrace tr) = Phase.running)) ∧
    ((sendCommand (runTrace tr) cmd).2 = true →
      (sendCommand (runTrace tr) cmd).1 =
        { runTrace tr with
            ptyWrites := (runTrace tr).ptyWrites ++ [cmd ++ "\r"] }) ∧
    ((sendCommand (runTrace tr) cmd).2 = false →
      (sendCommand (runTrace tr) cmd).1 = runTrace tr) := by
  have hinv := supInv_runTrace tr
  unfold SupInv at hinv
  by_cases hb : (runTrace tr).ptyRunning = true
  · have hph := hinv.mp hb
    simp [sendCommand_eq, hb, hph]
  · have hph : ¬(lifecycleState (runTrace tr) = Phase.starting ∨
        lifecycleState (runTrace tr) = Phase.running) :=
      fun hp => hb (hinv.mpr hp)
    simp only [Bool.not_eq_true] at hb
    simp [sendCommand_eq, hb, hph]

/-- C1 (witness): the amended gating theorem instantiated at the
one-spawn trace and the `stop` command. -/
theorem sendCommand_gated_by_pty_flag_witness :
    ((sendCommand (runTrace [SupInput.spawn]) "stop").2 = true ↔
      (lifecycleState (runTrace [SupInput.spawn]) = Phase.starting ∨
       lifecycleState (runTrace [SupInput.spawn]) = Phase.running)) ∧
    ((sendCommand (runTrace [SupInput.spawn]) "stop").2 = true →
      (sendCommand (runTrace [SupInput.spawn]) "stop").1 =
        { runTrace [SupInput.spawn] with
            ptyWrites := (runTrace [SupInput.spawn]).ptyWrites ++
              ["stop" ++ "\r"] }) ∧
    ((sendCommand (runTrace [SupInput.spawn]) "stop").2 = false →
      (sendCommand (runTrace [SupInput.spawn]) "stop").1 =
        runTrace [SupInput.spawn]) :=
  sendCommand_gated_by_pty_flag [SupInput.spawn] "stop"

/-- C2 (code bug): on a manifest holding `a.jar` with hash `H1` and a mods
directory where `a.jar` now hashes to `H2 ≠ H1`, the scan does not emit an
Update or change the stored hash: the update branch evaluates
`self.mods[mod_installed.index]` with `.index` undefined and throws an
uncaught TypeError, killing the process. -/
theorem scan_update_branch_throws_typeError :
    scanForNewMods "mc" [⟨"a.jar", "H1"⟩] [DirEntry.file "a.jar" "H2"] =
      Except.error "TypeError: Cannot set property hash of undefined" := rfl

/-- C3 (code bug): with manifest `[a.jar, b.jar]` and both files missing on
disk, the deletion pass reports and removes only `a.jar`; `b.jar` is never
examined because the splice during iteration shifts it over the cursor, so
it stays in the manifest and no Deletion event is emitted for it. -/
theorem scan_deletion_pass_skips_after_splice :
    scanForNewMods "mc" [⟨"a.jar", "H1"⟩, ⟨"b.jar", "H2"⟩] [] =
      Except.ok ⟨[⟨"b.jar", "H2"⟩],
                 [(ModEventKind.modDeletion, [⟨"a.jar", "H1"⟩])],
                 [FsOp.writeFile (joinPath "mc" "mods.json")
                    (jsonOfManifest [⟨"b.jar", "H2"⟩]),
                  FsOp.writeFile (joinPath "mc" "clientmods.json") "[]"]⟩ :=
  rfl

/-- C4 (counterexample): three successive chunks each holding the ready
marker `Done (3.21s)!` produce two `status: up` publications in one process
lifetime (the global regex's persistent `lastIndex` suppresses only the
second chunk), contradicting the claim of exactly one publication per
lifetime. -/
theorem statusUp_republished_on_later_match :
    ((runTrace [SupInput.spawn, SupInput.chunk doneChunk,
        SupInput.chunk doneChunk, SupInput.chunk doneChunk]).statusEvents.count
      "up") = 2 := by decide

/-- C4 (amended): while the process is live, each console chunk causes a
`status: up` publication exactly when the stateful global ready regex
matches the processed chunk at its current `lastIndex` — there is no
once-per-lifetime latch at the supervisor level, so the first match
triggers `Starting → Running`, but a later re-match publishes
`status: up` again. -/
theorem statusUp_emitted_iff_cdone_matches (s : SupState) (d : String)
    (h : s.ptyRunning = true) :
    (stepSup s (SupInput.chunk d)).statusEvents =
      s.statusEvents ++
        (if (cdoneExec (computeCinfo d) s.cdoneLast).1 then ["up"]
         else []) := by
  simp [stepSup, h, handleChunk]

/-- C4 (witness): the per-chunk rule instantiated right after spawn on the
Scenario 4 console line, whose ready marker is recognized. -/
theorem statusUp_emitted_iff_cdone_matches_witness :
    (stepSup (runTrace [SupInput.spawn])
        (SupInput.chunk scenario4Chunk)).statusEvents =
      (runTrace [SupInput.spawn]).statusEvents ++
        (if (cdoneExec (computeCinfo scenario4Chunk)
              (runTrace [SupInput.spawn]).cdoneLast).1 then ["up"]
         else []) :=
  statusUp_emitted_iff_cdone_matches (runTrace [SupInput.spawn])
    scenario4Chunk rfl

/-- C5 (code bug): a scan that produced a change (here, one Addition)
persists the manifest with a direct `fs.writeFile` to `mods.json` — an
in-place truncating overwrite; its filesystem operations contain no
temporary-file write and no rename, so the claimed crash-safe
temp-file-plus-atomic-rename protocol is absent. -/
theorem scan_manifest_write_is_direct_overwrite :
    scanForNewMods "mc" [] [DirEntry.file "a.jar" "H1"] =
      Except.ok ⟨[⟨"a.jar", "H1"⟩],
                 [(ModEventKind.modAddition, [⟨"a.jar", "H1"⟩])],
                 [FsOp.writeFile (joinPath "mc" "mods.json")
                    (jsonOfManifest [⟨"a.jar", "H1"⟩]),
                  FsOp.writeFile (joinPath "mc" "clientmods.json") "[]"]⟩ ∧
    List.any [FsOp.writeFile (joinPath "mc" "mods.json")
                (jsonOfManifest [⟨"a.jar", "H1"⟩]),
              FsOp.writeFile (joinPath "mc" "clientmods.json") "[]"]
      FsOp.isRename = false :=
  ⟨rfl, rfl⟩

/-- C6 (confirmed): `removeWorld(name)` applies its checks in exactly the
claimed precedence — empty name fails with `INVOKE` deleting nothing;
otherwise a running process fails with `PTY` deleting nothing; otherwise a
missing world directory fails with `NOTEXIST`; otherwise the directory
tree is recursively deleted and the call succeeds. -/
theorem removeWorld_check_precedence (mcDir : String) (s : SupState)
    (worlds : List (String × List WorldEntry)) (name : String) :
    (name = "" →
      removeWorld mcDir s worlds name =
        (⟨false, some "INVOKE"⟩, worlds, [])) ∧
    (name ≠ "" → s.ptyRunning = true →
      removeWorld mcDir s worlds name = (⟨false, some "PTY"⟩, worlds, [])) ∧
    (name ≠ "" → s.ptyRunning = false → worlds.lookup name = none →
      removeWorld mcDir s worlds name =
        (⟨false, some "NOTEXIST"⟩, worlds, [])) ∧
    (∀ cs, name ≠ "" → s.ptyRunning = false → worlds.lookup name = some cs →
      removeWorld mcDir s worlds name =
        (⟨true, none⟩, worlds.eraseP (fun p => p.1 == name),
         deleteFolderRecursive (joinPath mcDir name) cs)) := by
  refine ⟨?_, ?_, ?_, ?_⟩
  · intro h
    simp [removeWorld, h]
  · intro h hr
    simp [removeWorld, isPtyRunning, h, hr]
  · intro h hr hl
    simp [removeWorld, isPtyRunning, h, hr, hl]
  · intro cs h hr hl
    simp [removeWorld, isPtyRunning, h, hr, hl]

/-- C6 (witness): the success case at a concrete world `w` containing one
file, with the process not running. -/
theorem removeWorld_check_precedence_witness :
    removeWorld "mc" initState [("w", [WorldEntry.file "level.dat"])] "w" =
      (⟨true, none⟩,
       List.eraseP (fun p => p.1 == "w")
         [("w", [WorldEntry.file "level.dat"])],
       deleteFolderRecursive (joinPath "mc" "w")
         [WorldEntry.file "level.dat"]) :=
  (removeWorld_check_precedence "mc" initState
      [("w", [WorldEntry.file "level.dat"])] "w").2.2.2
    [WorldEntry.file "level.dat"] (by decide) rfl rfl

/-- C7 (confirmed): within one scan, the published events of any kind form
at most one batch; the batch carries every affected ModRecord of that kind
(in queue order), and a kind with no affected records publishes nothing. -/
theorem scan_events_coalesced_per_kind (q : List QueueEntry)
    (k : ModEventKind) :
    (emittedEvents q).filter (fun e => e.1 == k) =
      if kindData q k = [] then [] else [(k, kindData q k)] := by
  rw [emittedEvents_eq]
  cases k <;> split_ifs <;>
    simp_all [List.filter_append, List.filter_cons, beq_iff_eq]

/-- C8 (confirmed): for every input chunk the data handler appends the raw
chunk, newline-terminated, to the log sink; it produces at most one console
event, whose payload is the extracted tags followed by the message; and it
emits no console event when the first extracted element is the single-space
or the empty string (a null first element cannot occur: every element is a
string). -/
theorem console_parser_per_chunk (data : String) (li : Nat) :
    ((handleChunk data li).1).logWrite = data ++ "\n" ∧
    (∀ r, ((handleChunk data li).1).consoleEvent = some r →
        r = ctagsMatches data ++ [computeCinfo data]) ∧
    (((ctagsMatches data ++ [computeCinfo data]).head? = some " " ∨
      (ctagsMatches data ++ [computeCinfo data]).head? = some "") →
        ((handleChunk data li).1).consoleEvent = none) := by
  refine ⟨rfl, ?_, ?_⟩
  · intro r hr
    simp only [handleChunk, getRegexMatches] at hr
    rcases hh : (ctagsMatches data ++ [computeCinfo data]).head? with _ | h0
    · rw [hh] at hr
      simp at hr
      exact hr.symm
    · rw [hh] at hr
      by_cases hc : (h0 == " " || h0 == "") = true
      · simp [hc] at hr
      · simp [hc] at hr
        exact hr.symm
  · intro hd
    simp only [handleChunk, getRegexMatches]
    rcases hd with hd | hd <;> simp [hd]

/-- C8 (witness): on the empty chunk the first (and only) element of the
extracted sequence is the empty message, so no console event is emitted,
while the log sink still receives the newline-terminated chunk. -/
theorem console_parser_per_chunk_witness :
    ((handleChunk "" 0).1).logWrite = "" ++ "\n" ∧
    ((handleChunk "" 0).1).consoleEvent = none :=
  ⟨(console_parser_per_chunk "" 0).1,
   (console_parser_per_chunk "" 0).2.2 (Or.inr rfl)⟩

/-- C9 (confirmed): for every first argument that is not a RegExp instance,
`getRegexMatches` returns the plain string `ERROR` — not a match array and
not an exception. -/
theorem getRegexMatches_nonregex_returns_error_string
    (desc : String) (s : String) :
    getRegexMatches (JsArg.other desc) s =
      GetMatchesResult.errorString "ERROR" := rfl

/-- C10 (confirmed): every scan that runs to completion ends by writing the
serialized full manifest to `mods.json` (followed by the `clientmods.json`
write); the write list does not depend on the emitted events, so the
rewrite happens even for a scan with zero changes. -/
theorem scan_rewrites_manifest_unconditionally
    (dir : String) (mods : List ModRecord) (disk : List DirEntry)
    (r : ScanResult) (h : scanForNewMods dir mods disk = Except.ok r) :
    r.fsOps =
      [FsOp.writeFile (joinPath dir "mods.json") (jsonOfManifest r.mods),
       FsOp.writeFile (joinPath dir "clientmods.json") "[]"] := by
  simp only [scanForNewMods] at h
  split at h
  · exact absurd h (by simp)
  · cases h
    rfl

/-- C10 (witness): a zero-change scan (manifest and disk agree on `a.jar`)
emits no events yet still rewrites `mods.json`. -/
theorem scan_rewrites_manifest_unconditionally_witness :
    scanForNewMods "mc" [⟨"a.jar", "H1"⟩] [DirEntry.file "a.jar" "H1"] =
      Except.ok ⟨[⟨"a.jar", "H1"⟩], [],
        [FsOp.writeFile (joinPath "mc" "mods.json")
           (jsonOfManifest [⟨"a.jar", "H1"⟩]),
         FsOp.writeFile (joinPath "mc" "clientmods.json") "[]"]⟩ ∧
    ScanResult.fsOps ⟨[⟨"a.jar", "H1"⟩], [],
        [FsOp.writeFile (joinPath "mc" "mods.json")
           (jsonOfManifest [⟨"a.jar", "H1"⟩]),
         FsOp.writeFile (joinPath "mc" "clientmods.json") "[]"]⟩ =
      [FsOp.writeFile (joinPath "mc" "mods.json")
         (jsonOfManifest (ScanResult.mods ⟨[⟨"a.jar", "H1"⟩], [],
           [FsOp.writeFile (joinPath "mc" "mods.json")
              (jsonOfManifest [⟨"a.jar", "H1"⟩]),
            FsOp.writeFile (joinPath "mc" "clientmods.json") "[]"]⟩)),
       FsOp.writeFile (joinPath "mc" "clientmods.json") "[]"] :=
  ⟨rfl, scan_rewrites_manifest_unconditionally "mc" [⟨"a.jar", "H1"⟩]
    [DirEntry.file "a.jar" "H1"] _ rfl⟩
